import Mathlib

/-!
Verification development for the ME1MCP task-runner.

The program consists of two cooperating modules:

* helpers/task.py — the `TaskBase` class (ordered task registration via the
  `task_to_list` decorator, the `intInput` console helper, the `runTasks`
  driver, the `log` formatter) and the module-level `runSession` per-file
  scan;
* main.py — the `SessionRunner` class (`get_sessions` discovery,
  `validate_input` selection validation, and the stored `inputs` selection).

The embedding below is a direct translation of those functions.  Strings are
compared and inspected through their underlying character lists (Python
compares strings lexicographically by code point); console output is
modelled as the list of emitted lines; exceptions are modelled with
`Except`; the filesystem is modelled as the list of entries a directory
scan returns.
-/

namespace ME1MCP

/-! ### String primitives

Python string operations used by the program, modelled over the character
list of a `String` (`String.data`) so that every definition evaluates by
kernel reduction. -/

/-- Lexicographic less-or-equal on character lists by code point; this is
how Python's `sorted` compares `str` values. -/
def lexLe : List Char → List Char → Bool
  | [], _ => true
  | _ :: _, [] => false
  | a :: as, b :: bs =>
    if a.toNat < b.toNat then true
    else if a.toNat = b.toNat then lexLe as bs
    else false

/-- Python's `<=` on strings (code-point lexicographic order), as a
proposition. -/
def strLeP (a b : String) : Prop := lexLe a.data b.data = true

instance : DecidableRel strLeP := fun a b =>
  inferInstanceAs (Decidable (lexLe a.data b.data = true))

/-- Boolean list-prefix test (used to model `str.startswith`). -/
def isPrefixOfB : List Char → List Char → Bool
  | [], _ => true
  | _ :: _, [] => false
  | a :: as, b :: bs => a == b && isPrefixOfB as bs

/-- Python's `s.startswith(p)`. -/
def strStartsWithB (s p : String) : Bool := isPrefixOfB p.data s.data

/-- Python's `s.endswith(p)`. -/
def strEndsWithB (s p : String) : Bool :=
  isPrefixOfB p.data.reverse s.data.reverse

/-- Python's `s.isdigit()`: non-empty and every character a digit. -/
def isdigitB (s : String) : Bool := !s.data.isEmpty && s.data.all Char.isDigit

/-- Decimal value of an all-digit string, as computed by Python's `int`. -/
def digitVal (s : String) : Nat :=
  s.data.foldl (fun acc c => acc * 10 + (c.toNat - 48)) 0

/-- Python's `os.path.basename`: the part of the path after the last
slash. -/
def basename (p : String) : String :=
  ⟨(p.data.reverse.takeWhile (fun c => c != '/')).reverse⟩

/-- Strip leading and trailing whitespace (Python's `int` ignores
surrounding whitespace). -/
def trimChars (cs : List Char) : List Char :=
  ((cs.dropWhile Char.isWhitespace).reverse.dropWhile Char.isWhitespace).reverse

/-- Model of Python's built-in `int(str)`: optional surrounding whitespace,
optional sign, then a non-empty digit string; `none` models the
`ValueError` raised on anything else.  (Digit-group underscores, which
CPython also accepts, are not modelled; no claim depends on them.) -/
def pyIntParse (s : String) : Option Int :=
  let t := trimChars s.data
  let neg : Bool := t.headD ' ' == '-'
  let core : List Char :=
    match t with
    | '-' :: rest => rest
    | '+' :: rest => rest
    | _ => t
  if !core.isEmpty && core.all Char.isDigit then
    let v : Nat := core.foldl (fun acc c => acc * 10 + (c.toNat - 48)) 0
    some (if neg then -(v : Int) else (v : Int))
  else none

/-! ### helpers/task.py — `TaskBase` -/

/-- `TaskBase.log(msg, **vars)`: returns the emitted console lines.  With
output disabled nothing is emitted; with no variables the message alone is
printed; otherwise the message gets a colon and the `; `-joined
`key = value` pairs appended (`print(msg, var_str)` separates its two
arguments with one space).  Variable values are modelled already rendered
to strings, in keyword order. -/
def log (output : Bool) (msg : String) (vars : List (String × String)) :
    List String :=
  if output = false then []
  else if vars = [] then [msg]
  else
    [msg ++ ":" ++ " " ++
      String.intercalate "; " (vars.map (fun kv => kv.1 ++ " = " ++ kv.2))]

/-- `TaskBase.intInput(varname)` driven by a script of console replies:
returns the integer of the first reply that `int` accepts, together with
the number of `Invalid input` retry messages printed before it; `none`
when the script is exhausted without a valid integer (the real loop would
still be prompting). -/
def intInput : List String → Option (Int × Nat)
  | [] => none
  | s :: rest =>
    match pyIntParse s with
    | some n => some (n, 0)
    | none => (intInput rest).map (fun p => (p.1, p.2 + 1))

/-- A registered task: the registering function's name together with its
action on the collection instance's state, optionally returning a mapping
of result variables to log (values modelled already rendered). -/
structure PyTask (σ : Type) where
  tname : String
  f : σ → σ × Option (List (String × String))

/-- The `task_to_list(list)` decorator body: appends the function to the
collection-level task list and returns the function unchanged. -/
def task_to_list {σ : Type} (list : List (PyTask σ)) (func : PyTask σ) :
    List (PyTask σ) × PyTask σ :=
  (list ++ [func], func)

/-- Applying the decorator to each of `ts` in order, starting from the
registration list `acc` (registration happens once, at definition time). -/
def registerAll {σ : Type} (ts : List (PyTask σ)) (acc : List (PyTask σ)) :
    List (PyTask σ) :=
  ts.foldl (fun l t => (task_to_list l t).1) acc

/-- A task-collection instance: `name` and `output` from `__init__`, the
type-level `tasklist`, and the instance state the tasks thread through. -/
structure TaskBase (σ : Type) where
  name : String
  output : Bool
  tasklist : List (PyTask σ)
  state : σ

/-- One iteration of the `runTasks` loop: run the task on the current
state; if it returned a non-empty mapping (`if res:` is false for `None`
and for an empty dict), log the task's name with the mapping. -/
def runStep {σ : Type} (output : Bool) (acc : σ × List String)
    (t : PyTask σ) : σ × List String :=
  match t.f acc.1 with
  | (s2, none) => (s2, acc.2)
  | (s2, some []) => (s2, acc.2)
  | (s2, some vars) => (s2, acc.2 ++ log output t.tname vars)

/-- `TaskBase.runTasks`: banner lines, each task in task-list order, the
closing `done` banner; returns the final instance state and the emitted
lines. -/
def runTasks {σ : Type} (tb : TaskBase σ) : σ × List String :=
  let banner := log tb.output "################" []
  let header :=
    banner ++ log tb.output ("running Task " ++ tb.name ++ "...") [] ++ banner
  let r := tb.tasklist.foldl (runStep tb.output) (tb.state, header)
  (r.1, r.2 ++ log tb.output "done" [] ++ banner)

/-! ### helpers/task.py — module-level `runSession` -/

/-- One `.py` file as the scan sees it: its glob path, whether it is a
regular file, the outcome of importing the module (top-level code may
raise — the import sits outside the `try`), and the outcome of
`mod.Task(mod.__name__).runTasks()` (emitted lines, or the exception
message the `except` clause prints). -/
structure PyFile where
  path : String
  isFile : Bool
  importResult : Except String Unit
  taskRun : Except String (List String)

/-- The lines one non-skipped file contributes: its task run's output, or
the caught exception's printed message. -/
def fileOutput (f : PyFile) : List String :=
  match f.taskRun with
  | .ok logs => logs
  | .error e => [e]

/-- `runSession`'s per-file loop over the glob result: skip non-`.py`
entries (the `*.py` pattern), non-files, paths ending in `main.py`, and
basenames starting with `_`; otherwise import the module (an import
failure propagates and aborts the scan), run its task collection with
exceptions caught and printed, then print a blank separator line.
Returns the emitted lines and the uncaught exception, if any. -/
def runSession : List PyFile → List String × Option String
  | [] => ([], none)
  | f :: rest =>
    if strEndsWithB f.path ".py" = false then runSession rest
    else if f.isFile = false then runSession rest
    else if strEndsWithB f.path "main.py" || strStartsWithB (basename f.path) "_" then
      runSession rest
    else
      match f.importResult with
      | .error e => ([], some e)
      | .ok _ =>
        let r := runSession rest
        (fileOutput f ++ [""] ++ r.1, r.2)

/-! ### main.py — `SessionRunner` -/

/-- One entry of `os.listdir`, with its `os.path.isdir` status. -/
structure DirEntry where
  name : String
  isDir : Bool

/-- `SessionRunner.get_sessions`: keep the directory entries whose names
start with one of the configured prefixes, return their names sorted
ascending (Python's `sorted` on strings). -/
def get_sessions (entries : List DirEntry) (prefixes : List String) :
    List String :=
  List.insertionSort strLeP
    ((entries.filter
        (fun e => e.isDir && prefixes.any (fun p => strStartsWithB e.name p))).map
      (fun e => e.name))

/-- The two `ValueError` conditions `validate_input` raises:
`Invalid input {token}.` and `No valid inputs.`. -/
inductive VError where
  | invalidInput (tok : String)
  | noValidInputs
deriving DecidableEq

/-- One iteration of the `validate_input` loop: an empty token is skipped
(`ok none`); an all-digit token is read as a 1-based index, in range
resolving to that session, out of range raising `Invalid input {i}.` with
the parsed integer; any other token must be a discovered session name or
`Invalid input {token}.` is raised. -/
def resolve_token (sessions : List String) (tok : String) :
    Except VError (Option String) :=
  if tok = "" then .ok none
  else if isdigitB tok then
    if digitVal tok < 1 ∨ sessions.length < digitVal tok then
      .error (.invalidInput (toString (digitVal tok)))
    else .ok (some (sessions.getD (digitVal tok - 1) ""))
  else if tok ∈ sessions then .ok (some tok)
  else .error (.invalidInput tok)

/-- The `valid_inputs` accumulation of `validate_input`: resolve each token
in order, the first failure aborting the whole batch. -/
def collect (sessions : List String) : List String → Except VError (List String)
  | [] => .ok []
  | tok :: rest =>
    match resolve_token sessions tok with
    | .error e => .error e
    | .ok none => collect sessions rest
    | .ok (some s) =>
      match collect sessions rest with
      | .error e => .error e
      | .ok vs => .ok (s :: vs)

/-- `SessionRunner.validate_input` on the discovered session list: the
literal token `all` anywhere resolves the batch to the `["all"]` sentinel
at once; otherwise every token is resolved in order and an empty resolved
list raises `No valid inputs.`. -/
def validate_input (sessions : List String) (inputs : List String) :
    Except VError (List String) :=
  if "all" ∈ inputs then .ok ["all"]
  else
    match collect sessions inputs with
    | .error e => .error e
    | .ok [] => .error .noValidInputs
    | .ok vs => .ok vs

/-- The effect of one `validate_input` call on the stored class attribute
`cls.inputs`: on success the resolved list is stored, on a raised
`ValueError` the stored value is untouched. -/
def validate_input_upd (sessions inputs stored : List String) : List String :=
  match validate_input sessions inputs with
  | .ok vs => vs
  | .error _ => stored

/-- The spec's invariant on the stored selection: exactly the `["all"]`
sentinel, or a non-empty list of discovered session names. -/
def validSelection (sessions sel : List String) : Prop :=
  sel = ["all"] ∨ (sel ≠ [] ∧ ∀ s ∈ sel, s ∈ sessions)

/-! ### Helper lemmas -/

/-- Appending a colon-plus-space in two steps is the same as appending the
literal `": "`. -/
theorem strAppend_colon (msg J : String) :
    msg ++ ":" ++ " " ++ J = msg ++ ": " ++ J := by
  apply String.ext
  simp [String.data_append]

/-- Every token of an all-empty token list is skipped, so the accumulation
resolves to the empty list. -/
theorem collect_ok_of_empty_tokens (sessions : List String) :
    ∀ inputs : List String, (∀ t ∈ inputs, t = "") →
      collect sessions inputs = .ok [] := by
  intro inputs
  induction inputs with
  | nil => intro _; rfl
  | cons tok rest ih =>
    intro h
    have ht : tok = "" := h tok (by simp)
    subst ht
    have hrest : ∀ t ∈ rest, t = "" := fun t htt => h t (by simp [htt])
    simpa [collect, resolve_token] using ih hrest

/-- Code-point lexicographic order is total. -/
theorem lexLe_total : ∀ x y : List Char, lexLe x y = true ∨ lexLe y x = true := by
  intro x
  induction x with
  | nil => intro y; left; rfl
  | cons a as ih =>
    intro y
    cases y with
    | nil => right; rfl
    | cons b bs =>
      rcases Nat.lt_trichotomy a.toNat b.toNat with h | h | h
      · left; simp [lexLe, h]
      · rcases ih bs with hl | hr
        · left; simp [lexLe, h, hl]
        · right; simp [lexLe, ← h, hr]
      · right; simp [lexLe, h]

/-- Code-point lexicographic order is transitive. -/
theorem lexLe_trans : ∀ x y z : List Char,
    lexLe x y = true → lexLe y z = true → lexLe x z = true := by
  intro x
  induction x with
  | nil => intro y z _ _; rfl
  | cons a as ih =>
    intro y z hxy hyz
    cases y with
    | nil => simp [lexLe] at hxy
    | cons b bs =>
      cases z with
      | nil => simp [lexLe] at hyz
      | cons c cs =>
        by_cases hab : a.toNat < b.toNat
        · by_cases hbc : b.toNat < c.toNat
          · simp [lexLe, Nat.lt_trans hab hbc]
          · by_cases hbc2 : b.toNat = c.toNat
            · simp [lexLe, hbc2 ▸ hab]
            · simp [lexLe, hbc, hbc2] at hyz
        · by_cases hab2 : a.toNat = b.toNat
          · have hxy2 : lexLe as bs = true := by
              simpa [lexLe, hab, hab2] using hxy
            by_cases hbc : b.toNat < c.toNat
            · simp [lexLe, hab2 ▸ hbc]
            · by_cases hbc2 : b.toNat = c.toNat
              · have hyz2 : lexLe bs cs = true := by
                  simpa [lexLe, hbc, hbc2] using hyz
                simp [lexLe, hab2.trans hbc2, ih bs cs hxy2 hyz2]
              · simp [lexLe, hbc, hbc2] at hyz
          · simp [lexLe, hab, hab2] at hxy

instance : IsTotal String strLeP :=
  ⟨fun a b => lexLe_total a.data b.data⟩

instance : IsTrans String strLeP :=
  ⟨fun a b c => lexLe_trans a.data b.data c.data⟩

/-- When every earlier token resolves and one token fails, the whole
accumulation fails with that token's error. -/
theorem collect_append_error (sessions : List String) (tok : String)
    (e : VError) :
    ∀ pre rest : List String,
      (∀ t ∈ pre, ∃ v, resolve_token sessions t = .ok v) →
      resolve_token sessions tok = .error e →
      collect sessions (pre ++ tok :: rest) = .error e := by
  intro pre
  induction pre with
  | nil =>
    intro rest _ htok
    simp [collect, htok]
  | cons p ps ih =>
    intro rest hpre htok
    obtain ⟨v, hv⟩ := hpre p (by simp)
    have hps : ∀ t ∈ ps, ∃ v, resolve_token sessions t = .ok v :=
      fun t ht => hpre t (by simp [ht])
    cases v with
    | none => simpa [collect, hv] using ih rest hps htok
    | some s => simp [collect, hv, ih rest hps htok]

/-- The state component of one loop iteration is the task's state
update, whatever was logged. -/
theorem runStep_fst {σ : Type} (output : Bool) (acc : σ × List String)
    (t : PyTask σ) : (runStep output acc t).1 = (t.f acc.1).1 := by
  unfold runStep
  rcases h : t.f acc.1 with ⟨s2, res⟩
  cases res with
  | none => rfl
  | some vars => cases vars <;> rfl

/-- The state threaded by the `runTasks` loop is the left fold of the
task actions, independent of the log accumulator. -/
theorem foldl_runStep_fst {σ : Type} (output : Bool) :
    ∀ (ts : List (PyTask σ)) (s : σ) (logs : List String),
      (ts.foldl (runStep output) (s, logs)).1 =
        ts.foldl (fun s t => (t.f s).1) s := by
  intro ts
  induction ts with
  | nil => intro s logs; rfl
  | cons t ts ih =>
    intro s logs
    simp only [List.foldl_cons]
    rcases hr : runStep output (s, logs) t with ⟨s2, logs2⟩
    have hs2 : s2 = (t.f s).1 := by
      have h := runStep_fst output (s, logs) t
      rw [hr] at h
      exact h
    rw [ih s2 logs2, hs2]

/-- Registering tasks appends them, in order, to the registration list. -/
theorem registerAll_eq {σ : Type} :
    ∀ ts acc : List (PyTask σ), registerAll ts acc = acc ++ ts := by
  intro ts
  induction ts with
  | nil => intro acc; simp [registerAll]
  | cons t ts ih =>
    intro acc
    have h : registerAll (t :: ts) acc = registerAll ts (acc ++ [t]) := rfl
    rw [h, ih]
    simp

/-- A token resolved to a session name names a discovered session. -/
theorem resolve_token_ok_mem (sessions : List String) (tok s : String)
    (h : resolve_token sessions tok = .ok (some s)) : s ∈ sessions := by
  unfold resolve_token at h
  by_cases h0 : tok = ""
  · rw [if_pos h0] at h
    simp at h
  · rw [if_neg h0] at h
    by_cases hd : isdigitB tok = true
    · rw [if_pos hd] at h
      by_cases hr : digitVal tok < 1 ∨ sessions.length < digitVal tok
      · rw [if_pos hr] at h
        exact Except.noConfusion h
      · rw [if_neg hr] at h
        simp only [Except.ok.injEq, Option.some.injEq] at h
        have hlt : digitVal tok - 1 < sessions.length := by omega
        rw [← h, List.getD_eq_getElem sessions "" hlt]
        exact List.getElem_mem hlt
    · rw [if_neg hd] at h
      by_cases hm : tok ∈ sessions
      · rw [if_pos hm] at h
        simp only [Except.ok.injEq, Option.some.injEq] at h
        rwa [← h]
      · rw [if_neg hm] at h
        exact Except.noConfusion h

/-- Every name in a successfully accumulated batch is a discovered
session. -/
theorem collect_ok_mem (sessions : List String) :
    ∀ inputs vs, collect sessions inputs = .ok vs →
      ∀ s ∈ vs, s ∈ sessions := by
  intro inputs
  induction inputs with
  | nil =>
    intro vs h s hs
    simp only [collect, Except.ok.injEq] at h
    subst h
    simp at hs
  | cons tok rest ih =>
    intro vs h s hs
    simp only [collect] at h
    rcases hr : resolve_token sessions tok with e | v
    · rw [hr] at h
      exact Except.noConfusion h
    · cases v with
      | none =>
        rw [hr] at h
        exact ih vs h s hs
      | some s2 =>
        rw [hr] at h
        rcases hc : collect sessions rest with e2 | vs2
        · rw [hc] at h
          exact Except.noConfusion h
        · rw [hc] at h
          simp only [Except.ok.injEq] at h
          subst h
          rcases List.mem_cons.mp hs with rfl | hs2
          · exact resolve_token_ok_mem sessions tok s hr
          · exact ih vs2 hc s hs2

/-- A successful validation stores either the sentinel or a non-empty
list of discovered session names. -/
theorem validate_input_ok_valid (sessions inputs vs : List String)
    (h : validate_input sessions inputs = .ok vs) :
    validSelection sessions vs := by
  unfold validate_input at h
  by_cases hall : "all" ∈ inputs
  · rw [if_pos hall] at h
    simp only [Except.ok.injEq] at h
    subst h
    left
    rfl
  · rw [if_neg hall] at h
    rcases hc : collect sessions inputs with e | cvs
    · rw [hc] at h
      exact Except.noConfusion h
    · rw [hc] at h
      cases cvs with
      | nil => exact Except.noConfusion h
      | cons c cs =>
        simp only [Except.ok.injEq] at h
        subst h
        right
        exact ⟨by simp, fun s hs =>
          collect_ok_mem sessions inputs (c :: cs) hc s hs⟩

/-! ### Claims -/

/-- C1: in the per-session file scan, an exception raised while
instantiating or running one qualifying file's task collection is caught:
its message is the only line that file contributes (plus the separator),
no error propagates from it, and the scan proceeds to the remaining files
unchanged. -/
theorem run_session_isolates_failure (f : PyFile) (rest : List PyFile)
    (e : String)
    (hpy : strEndsWithB f.path ".py" = true)
    (hfile : f.isFile = true)
    (hmain : strEndsWithB f.path "main.py" = false)
    (hund : strStartsWithB (basename f.path) "_" = false)
    (himp : f.importResult = .ok ())
    (hrun : f.taskRun = .error e) :
    runSession (f :: rest) =
      ([e] ++ [""] ++ (runSession rest).1, (runSession rest).2) := by
  simp [runSession, hpy, hfile, hmain, hund, himp, fileOutput, hrun]

/-- C1 witness: with two task files where the first raises during
execution, the second file's tasks still run and are logged. -/
theorem run_session_isolates_failure_witness :
    runSession [⟨"/root/session1/a.py", true, .ok (), .error "boom"⟩,
        ⟨"/root/session1/b.py", true, .ok (), .ok ["task1: total = 6"]⟩] =
      (["boom", "", "task1: total = 6", ""], none) := by
  have h := run_session_isolates_failure
    ⟨"/root/session1/a.py", true, .ok (), .error "boom"⟩
    [⟨"/root/session1/b.py", true, .ok (), .ok ["task1: total = 6"]⟩]
    "boom" (by decide) rfl (by decide) (by decide) rfl rfl
  exact h.trans (by decide)

/-- C2: in `validate_input`, an all-digit token resolves as a 1-based
index into the discovered session list when the index is in `[1, count]`
and otherwise raises `Invalid input` naming the parsed integer; a
non-empty non-digit token must be a discovered session name or raises
`Invalid input` naming the token; and a token that raises makes the whole
batch fail with exactly that error. -/
theorem validate_input_index_resolution (sessions pre rest : List String)
    (tok : String) (e : VError)
    (hall : "all" ∉ pre ++ tok :: rest)
    (hpre : ∀ t ∈ pre, ∃ v, resolve_token sessions t = .ok v)
    (htok : resolve_token sessions tok = .error e) :
    validate_input sessions (pre ++ tok :: rest) = .error e
    ∧ (∀ t, isdigitB t = true →
        resolve_token sessions t =
          if 1 ≤ digitVal t ∧ digitVal t ≤ sessions.length then
            .ok (some (sessions.getD (digitVal t - 1) ""))
          else .error (.invalidInput (toString (digitVal t))))
    ∧ (∀ t, isdigitB t = false → t ≠ "" →
        resolve_token sessions t =
          if t ∈ sessions then .ok (some t)
          else .error (.invalidInput t)) := by
  refine ⟨?_, ?_, ?_⟩
  · unfold validate_input
    rw [if_neg hall, collect_append_error sessions tok e pre rest hpre htok]
  · intro t ht
    have hne : t ≠ "" := by
      intro h0
      subst h0
      simp [isdigitB] at ht
    unfold resolve_token
    rw [if_neg hne, if_pos ht]
    by_cases hc : 1 ≤ digitVal t ∧ digitVal t ≤ sessions.length
    · rw [if_pos hc, if_neg (by omega)]
    · rw [if_neg hc, if_pos (by omega)]
  · intro t ht hne
    unfold resolve_token
    rw [if_neg hne, if_neg (by simp [ht])]

/-- C2 witness: with discovered sessions `["session1", "session2"]`, the
token `3` fails the whole batch with `Invalid input 3.` and the token `2`
resolves to `session2`. -/
theorem validate_input_index_resolution_witness :
    validate_input ["session1", "session2"] ["3"] =
      .error (.invalidInput "3")
    ∧ validate_input ["session1", "session2"] ["2"] = .ok ["session2"] := by
  refine ⟨?_, by rfl⟩
  exact (validate_input_index_resolution ["session1", "session2"] [] [] "3"
    (.invalidInput "3") (by decide) (by simp) (by rfl)).1

/-- C3: a token batch containing the exact token `all` resolves to the
`["all"]` sentinel, whatever the other tokens are. -/
theorem validate_input_all_sentinel (sessions inputs : List String)
    (h : "all" ∈ inputs) :
    validate_input sessions inputs = .ok ["all"] := by
  unfold validate_input
  rw [if_pos h]

/-- C3 witness: `all` wins even when the batch also holds invalid and
empty tokens. -/
theorem validate_input_all_sentinel_witness :
    validate_input ["session1"] ["bogus", "", "9", "all"] = .ok ["all"] :=
  validate_input_all_sentinel ["session1"] ["bogus", "", "9", "all"]
    (by decide)

/-- C4: an empty token is skipped by the resolution loop, and a batch
whose tokens are all empty fails with the `No valid inputs.` condition,
which is distinct from every `Invalid input` condition. -/
theorem validate_input_empty_token_rules (sessions rest inputs : List String)
    (hemp : ∀ t ∈ inputs, t = "") :
    collect sessions ("" :: rest) = collect sessions rest
    ∧ validate_input sessions inputs = .error .noValidInputs
    ∧ ∀ t, VError.noValidInputs ≠ VError.invalidInput t := by
  refine ⟨rfl, ?_, fun t h => VError.noConfusion h⟩
  have hall : "all" ∉ inputs := by
    intro hmem
    exact absurd (hemp "all" hmem) (by decide)
  unfold validate_input
  rw [if_neg hall, collect_ok_of_empty_tokens sessions inputs hemp]

/-- C4 witness: `validate_input` on the single empty token fails with
`No valid inputs.`. -/
theorem validate_input_empty_token_rules_witness :
    collect ["session1", "session2"] ("" :: []) =
      collect ["session1", "session2"] []
    ∧ validate_input ["session1", "session2"] [""] =
        .error .noValidInputs
    ∧ ∀ t, VError.noValidInputs ≠ VError.invalidInput t :=
  validate_input_empty_token_rules ["session1", "session2"] [] [""]
    (by simp)

/-- C5: session discovery returns exactly the names of the directory
entries whose names start with a configured prefix — sorted ascending in
code-point lexicographic order, as a permutation of the filtered scan,
with non-directory entries silently skipped — and on the root
`{session1, session2, other}` (plus a non-directory `session0`) with
prefix `session` it returns exactly `["session1", "session2"]`. -/
theorem get_sessions_spec (entries : List DirEntry) (prefixes : List String) :
    List.Sorted strLeP (get_sessions entries prefixes)
    ∧ (get_sessions entries prefixes).Perm
        ((entries.filter
            (fun e => e.isDir
              && prefixes.any (fun p => strStartsWithB e.name p))).map
          (fun e => e.name))
    ∧ (∀ s, s ∈ get_sessions entries prefixes ↔
        ∃ e ∈ entries, e.isDir = true
          ∧ prefixes.any (fun p => strStartsWithB e.name p) = true
          ∧ e.name = s)
    ∧ get_sessions [⟨"session1", true⟩, ⟨"session2", true⟩,
        ⟨"other", true⟩, ⟨"session0", false⟩] ["session"] =
      ["session1", "session2"] := by
  refine ⟨List.sorted_insertionSort strLeP _,
    List.perm_insertionSort strLeP _, ?_, by decide⟩
  intro s
  rw [get_sessions, List.Perm.mem_iff (List.perm_insertionSort strLeP _)]
  simp only [List.mem_map, List.mem_filter, Bool.and_eq_true]
  constructor
  · rintro ⟨e, ⟨he, hd, hp⟩, hn⟩
    exact ⟨e, he, hd, hp, hn⟩
  · rintro ⟨e, he, hd, hp, hn⟩
    exact ⟨e, ⟨he, hd, hp⟩, hn⟩

/-- C5 witness: the concrete discovery example, read off the theorem. -/
theorem get_sessions_spec_witness :
    get_sessions [⟨"session1", true⟩, ⟨"session2", true⟩,
        ⟨"other", true⟩, ⟨"session0", false⟩] ["session"] =
      ["session1", "session2"] :=
  (get_sessions_spec [⟨"session1", true⟩, ⟨"session2", true⟩,
      ⟨"other", true⟩, ⟨"session0", false⟩] ["session"]).2.2.2

/-- C6: `log` with output disabled emits nothing; with no variables it
emits exactly the message; with variables it emits exactly the message,
a colon, and the `; `-joined `key = value` pairs.  Determinism is
immediate: `log` is a function of its arguments. -/
theorem log_format (msg : String) (vars : List (String × String)) :
    log false msg vars = []
    ∧ log true msg [] = [msg]
    ∧ (vars ≠ [] → log true msg vars =
        [msg ++ ": " ++
          String.intercalate "; "
            (vars.map (fun kv => kv.1 ++ " = " ++ kv.2))]) := by
  refine ⟨rfl, rfl, fun hv => ?_⟩
  rw [← strAppend_colon msg
    ("; ".intercalate (List.map (fun kv => kv.1 ++ " = " ++ kv.2) vars))]
  simp [log, hv]

/-- C6 witness: `log("task1", total=6)` emits exactly `task1: total = 6`,
`log("task1")` emits exactly `task1`, and a disabled logger emits
nothing. -/
theorem log_format_witness :
    log true "task1" [("total", "6")] = ["task1: total = 6"]
    ∧ log true "task1" [] = ["task1"]
    ∧ log false "task1" [("total", "6")] = [] := by
  refine ⟨?_, (log_format "task1" [("total", "6")]).2.1,
    (log_format "task1" [("total", "6")]).1⟩
  have h := (log_format "task1" [("total", "6")]).2.2 (by simp)
  rw [h]
  rfl

/-- C7: the decorator appends each task once to the registration list and
returns the function unchanged, registration in order `[t1, ..., tn]`
yields exactly that list, and every run of `runTasks` threads the instance
state through exactly those tasks in registration order (the run depends
only on the type-level registration list, not on any instantiation
order). -/
theorem run_tasks_registration_order {σ : Type} (name : String)
    (output : Bool) (ts acc : List (PyTask σ)) (s0 : σ)
    (l : List (PyTask σ)) (f : PyTask σ) :
    task_to_list l f = (l ++ [f], f)
    ∧ registerAll ts acc = acc ++ ts
    ∧ (runTasks ⟨name, output, ts, s0⟩).1 =
        ts.foldl (fun s t => (t.f s).1) s0 := by
  refine ⟨rfl, registerAll_eq ts acc, ?_⟩
  exact foldl_runStep_fst output ts s0 _

/-- C7 witness: two concrete tasks registered in order run in that order,
so the final state is the second task applied to the first's result. -/
theorem run_tasks_registration_order_witness :
    task_to_list [(⟨"t1", fun n => (n + 1, none)⟩ : PyTask Nat)]
        ⟨"t2", fun n => (n * 3, none)⟩ =
      ([⟨"t1", fun n => (n + 1, none)⟩, ⟨"t2", fun n => (n * 3, none)⟩],
        ⟨"t2", fun n => (n * 3, none)⟩)
    ∧ registerAll
        [(⟨"t1", fun n => (n + 1, none)⟩ : PyTask Nat),
          ⟨"t2", fun n => (n * 3, none)⟩] [] =
      [⟨"t1", fun n => (n + 1, none)⟩, ⟨"t2", fun n => (n * 3, none)⟩]
    ∧ (runTasks ⟨"A", true,
        [(⟨"t1", fun n => (n + 1, none)⟩ : PyTask Nat),
          ⟨"t2", fun n => (n * 3, none)⟩], 0⟩).1 = 3 := by
  have h := run_tasks_registration_order "A" true
    [(⟨"t1", fun n => (n + 1, none)⟩ : PyTask Nat),
      ⟨"t2", fun n => (n * 3, none)⟩] []
    0 [⟨"t1", fun n => (n + 1, none)⟩] ⟨"t2", fun n => (n * 3, none)⟩
  exact ⟨h.1, h.2.1, h.2.2.trans (by decide)⟩

/-- C8: the stored selection is never partially valid — from any valid
stored selection, a `validate_input` call leaves a valid selection (the
sentinel or a non-empty list of discovered names), and a failed call
leaves the stored selection unchanged. -/
theorem validate_input_all_or_nothing (sessions inputs stored : List String)
    (h : validSelection sessions stored) :
    validSelection sessions (validate_input_upd sessions inputs stored)
    ∧ ∀ e, validate_input sessions inputs = .error e →
        validate_input_upd sessions inputs stored = stored := by
  constructor
  · unfold validate_input_upd
    rcases hv : validate_input sessions inputs with e | vs
    · exact h
    · exact validate_input_ok_valid sessions inputs vs hv
  · intro e he
    unfold validate_input_upd
    rw [he]

/-- C8 witness: with stored selection `["session1"]`, the failing batch
`["3"]` leaves the stored selection valid and unchanged. -/
theorem validate_input_all_or_nothing_witness :
    validSelection ["session1", "session2"]
      (validate_input_upd ["session1", "session2"] ["3"] ["session1"])
    ∧ ∀ e, validate_input ["session1", "session2"] ["3"] = .error e →
        validate_input_upd ["session1", "session2"] ["3"] ["session1"] =
          ["session1"] :=
  validate_input_all_or_nothing ["session1", "session2"] ["3"] ["session1"]
    (Or.inr ⟨by decide, by decide⟩)

/-- C9: whenever some scripted console reply parses as an integer,
`intInput` terminates with the value of the first such reply, after one
retry message per preceding non-integer reply, and never fails. -/
theorem intInput_first_valid (inputs : List String)
    (h : ∃ s ∈ inputs, (pyIntParse s).isSome = true) :
    ∃ v k, intInput inputs = some (v, k)
      ∧ k < inputs.length
      ∧ pyIntParse (inputs.getD k "") = some v
      ∧ ∀ j < k, pyIntParse (inputs.getD j "") = none := by
  induction inputs with
  | nil => simp at h
  | cons s rest ih =>
    rcases hp : pyIntParse s with _ | n
    · have h2 : ∃ t ∈ rest, (pyIntParse t).isSome = true := by
        rcases h with ⟨t, ht, hts⟩
        rcases List.mem_cons.mp ht with rfl | htr
        · rw [hp] at hts
          simp at hts
        · exact ⟨t, htr, hts⟩
      obtain ⟨v, k, h1, hlen, hk, hj⟩ := ih h2
      refine ⟨v, k + 1, ?_, by simpa using hlen, by simpa using hk, ?_⟩
      · simp [intInput, hp, h1]
      · intro j hjk
        cases j with
        | zero => simpa using hp
        | succ j2 =>
          have : j2 < k := by omega
          simpa using hj j2 this
    · refine ⟨n, 0, by simp [intInput, hp], by simp, by simpa using hp, ?_⟩
      intro j hj
      exact absurd hj (Nat.not_lt_zero j)

/-- C9 witness: the script `["abc", " 42 "]` produces one retry message
and then returns 42. -/
theorem intInput_first_valid_witness :
    (∃ v k, intInput ["abc", " 42 "] = some (v, k)
      ∧ k < (["abc", " 42 "] : List String).length
      ∧ pyIntParse ((["abc", " 42 "] : List String).getD k "") = some v
      ∧ ∀ j < k,
          pyIntParse ((["abc", " 42 "] : List String).getD j "") = none)
    ∧ intInput ["abc", " 42 "] = some (42, 1) :=
  ⟨intInput_first_valid ["abc", " 42 "] (by decide), by decide⟩

/-- C10: a qualifying `.py` file is excluded from the scan exactly when
its path ends with `main.py` (so a file named `xmain.py` is excluded too)
or its basename starts with `_`; every other `.py` file is imported and
its task collection run. -/
theorem run_session_exclusion_rule (f : PyFile) (rest : List PyFile)
    (hpy : strEndsWithB f.path ".py" = true)
    (hfile : f.isFile = true) :
    ((strEndsWithB f.path "main.py" = true
        ∨ strStartsWithB (basename f.path) "_" = true) →
      runSession (f :: rest) = runSession rest)
    ∧ (strEndsWithB f.path "main.py" = false →
        strStartsWithB (basename f.path) "_" = false →
        f.importResult = .ok () →
        runSession (f :: rest) =
          (fileOutput f ++ [""] ++ (runSession rest).1,
            (runSession rest).2)) := by
  constructor
  · intro h
    rcases h with h | h <;> simp [runSession, hpy, hfile, h]
  · intro h1 h2 h3
    simp [runSession, hpy, hfile, h1, h2, h3]

/-- C10 witness: `xmain.py` is excluded (its path ends with `main.py`),
`_hidden.py` is excluded, and an ordinary `b.py` is imported and run. -/
theorem run_session_exclusion_rule_witness :
    runSession [⟨"/root/session1/xmain.py", true, .ok (), .ok ["x"]⟩] =
      ([], none)
    ∧ runSession [⟨"/root/session1/_hidden.py", true, .ok (), .ok ["x"]⟩] =
        ([], none)
    ∧ runSession [⟨"/root/session1/b.py", true, .ok (), .ok ["ran"]⟩] =
        (["ran", ""], none) := by
  refine ⟨?_, ?_, ?_⟩
  · exact ((run_session_exclusion_rule
      ⟨"/root/session1/xmain.py", true, .ok (), .ok ["x"]⟩ []
      (by decide) rfl).1 (Or.inl (by decide))).trans (by decide)
  · exact ((run_session_exclusion_rule
      ⟨"/root/session1/_hidden.py", true, .ok (), .ok ["x"]⟩ []
      (by decide) rfl).1 (Or.inr (by decide))).trans (by decide)
  · exact ((run_session_exclusion_rule
      ⟨"/root/session1/b.py", true, .ok (), .ok ["ran"]⟩ []
      (by decide) rfl).2 (by decide) (by decide) rfl).trans (by decide)

end ME1MCP
